import Mathlib

/-!
Verification of the `file_method` repository (path validation and
extension-based directory scanning).

The two Rust source files are shallowly embedded:

* `src/check_path.rs`: `get_full_path`, `get_path_str`,
  `is_valid_directory`, `is_valid_file`;
* `src/seek_file.rs`: `seek_file_by_extension`.

The operating-system surface the code calls (`fs::canonicalize`,
`Path::is_dir`, `Path::is_file`, `fs::read_dir`, `Path::to_str`) is
modelled by an explicit filesystem world `FS`: a record of the
primitives, one snapshot per call.  All repository functions are then
deterministic functions of the world.  Paths are carried as `String`;
the possibility that an OS path is not valid UTF-8 (so `Path::to_str`
returns `None`) is modelled by the world's `utf8_representable` field.

`std::io::Error` is modelled by `IOErr`: an error kind plus the message
string.  Errors constructed by the repository itself always use kind
`ErrKind.other` (the code writes `std::io::ErrorKind::Other`); errors
coming from the OS carry an arbitrary kind.
-/

namespace FileMethod

/-- Error kind of a `std::io::Error`.  `other` is `ErrorKind::Other`,
used by every error the repository constructs itself; `os code` stands
for any kind an underlying OS failure may carry. -/
inductive ErrKind where
  | other : ErrKind
  | os : Nat → ErrKind
deriving DecidableEq, Repr

/-- Model of `std::io::Error`: a kind together with the message string. -/
structure IOErr where
  kind : ErrKind
  msg : String
deriving DecidableEq, Repr

/-- A filesystem snapshot: the OS primitives the repository calls.

* `canonicalize` models `fs::canonicalize` (absolute, symlink-resolved
  form, or an OS error);
* `is_dir` / `is_file` model `Path::is_dir` / `Path::is_file`
  (metadata-based, following symlinks);
* `read_dir` models `fs::read_dir`: either an error, or the list of
  immediate entries, each entry itself either an error or the entry's
  file name (a single component, as produced by `DirEntry::file_name`);
* `utf8_representable` models whether `Path::to_str` succeeds on the
  path (in the carrier the successful conversion is the identity). -/
structure FS where
  canonicalize : String → Except IOErr String
  is_dir : String → Bool
  is_file : String → Bool
  read_dir : String → Except IOErr (List (Except IOErr String))
  utf8_representable : String → Bool

/-- Embedding of `get_full_path` (`check_path.rs`, lines 13-16):
`fs::canonicalize(src_path)?`. -/
def get_full_path (fs : FS) (src_path : String) : Except IOErr String :=
  fs.canonicalize src_path

/-- Embedding of `get_path_str` (`check_path.rs`, lines 27-39):
`src_path.to_str()` with the `None` case turned into
`ErrorKind::Other, "Failed to convert path to string"`. -/
def get_path_str (fs : FS) (src_path : String) : Except IOErr String :=
  if fs.utf8_representable src_path then
    Except.ok src_path
  else
    Except.error ⟨ErrKind.other, "Failed to convert path to string"⟩

/-- Embedding of `is_valid_directory` (`check_path.rs`, lines 50-60). -/
def is_valid_directory (fs : FS) (directory_path : String) :
    Except IOErr String :=
  match get_full_path fs directory_path with
  | Except.error e => Except.error e
  | Except.ok full_path =>
    match get_path_str fs full_path with
    | Except.error e => Except.error e
    | Except.ok path_str =>
      if !fs.is_dir full_path then
        Except.error ⟨ErrKind.other, path_str ++ " is not a directory"⟩
      else
        Except.ok full_path

/-- Embedding of `is_valid_file` (`check_path.rs`, lines 71-81). -/
def is_valid_file (fs : FS) (file_path : String) : Except IOErr String :=
  match get_full_path fs file_path with
  | Except.error e => Except.error e
  | Except.ok full_path =>
    match get_path_str fs full_path with
    | Except.error e => Except.error e
    | Except.ok path_str =>
      if !fs.is_file full_path then
        Except.error ⟨ErrKind.other, path_str ++ " is not a file"⟩
      else
        Except.ok full_path

/-- Decidable equality for `Except`, so that concrete results can be
compared by evaluation. -/
instance {ε α : Type} [DecidableEq ε] [DecidableEq α] :
    DecidableEq (Except ε α) := fun a b =>
  match a, b with
  | Except.ok x, Except.ok y =>
    match decEq x y with
    | isTrue h => isTrue (by rw [h])
    | isFalse h => isFalse (by intro hc; exact h (Except.ok.inj hc))
  | Except.error x, Except.error y =>
    match decEq x y with
    | isTrue h => isTrue (by rw [h])
    | isFalse h => isFalse (by intro hc; exact h (Except.error.inj hc))
  | Except.ok _, Except.error _ => isFalse (by intro hc; cases hc)
  | Except.error _, Except.ok _ => isFalse (by intro hc; cases hc)

/-- `Path::join` of a directory path with an entry file name, as used by
`DirEntry::path()` (`entry.path()` is the scanned directory joined with
the entry's name; entry names are single non-empty components, never
absolute).  A separator is inserted unless the directory already ends
with one. -/
def path_join (dir name : String) : String :=
  if dir.data.getLast? = some '/' then dir ++ name else dir ++ "/" ++ name

/-- Index of the last `.` in a character list, if any
(the search `rfind` inside Rust's `split_file_at_dot`). -/
def last_dot_idx : List Char → Option Nat
  | [] => none
  | c :: cs =>
    match last_dot_idx cs with
    | some i => some (i + 1)
    | none => if c = '.' then some 0 else none

/-- Rust `Path::extension` restricted to a file name: `None` when the
name is `..`, has no `.`, or its only `.` is leading (hidden files like
`.gitignore`); otherwise the segment after the last `.` (possibly
empty, as for `"foo."`).  Mirrors `split_file_at_dot` in Rust's std. -/
def file_extension (name : String) : Option String :=
  if name = ".." then none
  else
    match last_dot_idx name.toList with
    | none => none
    | some 0 => none
    | some i => some (String.mk (name.toList.drop (i + 1)))

/-- Split a character list at `/` separators (always returns at least
one component; empty components for leading, trailing or doubled
separators). -/
def split_slash : List Char → List (List Char)
  | [] => [[]]
  | c :: cs =>
    match split_slash cs with
    | [] => if c = '/' then [[], []] else [[c]]
    | comp :: rest =>
      if c = '/' then [] :: comp :: rest
      else (c :: comp) :: rest

/-- Rust `Path::file_name`: the final non-empty, non-`.` component, or
`None` if there is none or it is `..`. -/
def path_file_name (p : String) : Option String :=
  let comps := (split_slash p.data).filter
    (fun c => (c != []) && (c != ['.']))
  match comps.getLast? with
  | none => none
  | some c => if c = ['.', '.'] then none else some (String.mk c)

/-- Rust `Path::extension` on a full path: the extension of its file
name. -/
def path_extension (p : String) : Option String :=
  (path_file_name p).bind file_extension

/-- The `for entry in fs::read_dir(..)` loop body of
`seek_file_by_extension` (`seek_file.rs`, lines 47-54): propagate the
first entry error, otherwise keep `entry.path()` when it is a regular
file whose extension equals `extension`. -/
def seek_entries (fs : FS) (src_dir : String) (extension : String) :
    List (Except IOErr String) → Except IOErr (List String)
  | [] => Except.ok []
  | e :: rest =>
    match e with
    | Except.error err => Except.error err
    | Except.ok name =>
      let path := path_join src_dir name
      match seek_entries fs src_dir extension rest with
      | Except.error err => Except.error err
      | Except.ok files =>
        if fs.is_file path && path_extension path == some extension then
          Except.ok (path :: files)
        else
          Except.ok files

/-- Embedding of `seek_file_by_extension` (`seek_file.rs`, lines
32-56): validate the directory, reject an empty extension, then scan
the entries. -/
def seek_file_by_extension (fs : FS) (directory_path : String)
    (extension : String) : Except IOErr (List String) :=
  match is_valid_directory fs directory_path with
  | Except.error e => Except.error e
  | Except.ok src_dir =>
    if extension.isEmpty then
      Except.error ⟨ErrKind.other, "Extension is not specified."⟩
    else
      match fs.read_dir src_dir with
      | Except.error e => Except.error e
      | Except.ok entries => seek_entries fs src_dir extension entries

/-! ## Concrete filesystem worlds

Used to evaluate the theorems on explicit inputs. -/

/-- A concrete world: directory `/d` holds regular files `a.pdf`,
`f.pdf`, `b.txt` and a subdirectory `sub`; `/e` is an empty directory;
`/locked` is a directory whose entries cannot be read; everything else
fails to canonicalize. -/
def demoFS : FS where
  canonicalize := fun p =>
    if p == "/d" || p == "d" then Except.ok "/d"
    else if p == "/e" then Except.ok "/e"
    else if p == "/locked" then Except.ok "/locked"
    else if p == "/d/a.pdf" then Except.ok "/d/a.pdf"
    else Except.error ⟨ErrKind.os 2, "No such file or directory"⟩
  is_dir := fun p => p == "/d" || p == "/e" || p == "/locked" || p == "/d/sub"
  is_file := fun p => p == "/d/a.pdf" || p == "/d/f.pdf" || p == "/d/b.txt"
  read_dir := fun p =>
    if p == "/d" then
      Except.ok [Except.ok "a.pdf", Except.ok "f.pdf",
        Except.ok "b.txt", Except.ok "sub"]
    else if p == "/e" then Except.ok []
    else Except.error ⟨ErrKind.os 13, "Permission denied"⟩
  utf8_representable := fun _ => true

/-- A world where directory `/d` contains one entry `link.pdf`, a
symbolic link whose target is the regular file `/real.pdf`: metadata
resolution reports a regular file, but the entry path `/d/link.pdf` is
not in symlink-resolved form (its canonical form is `/real.pdf`). -/
def symFS : FS where
  canonicalize := fun p =>
    if p == "/d" then Except.ok "/d"
    else if p == "/d/link.pdf" || p == "/real.pdf" then Except.ok "/real.pdf"
    else Except.error ⟨ErrKind.os 2, "No such file or directory"⟩
  is_dir := fun p => p == "/d"
  is_file := fun p => p == "/d/link.pdf" || p == "/real.pdf"
  read_dir := fun p =>
    if p == "/d" then Except.ok [Except.ok "link.pdf"]
    else Except.error ⟨ErrKind.os 13, "Permission denied"⟩
  utf8_representable := fun _ => true

/-- A world where `/w` canonicalizes to itself, is a directory, but its
canonical form is not representable as UTF-8 text, so `Path::to_str`
fails on it. -/
def rawFS : FS where
  canonicalize := fun p =>
    if p == "/w" then Except.ok "/w"
    else Except.error ⟨ErrKind.os 2, "No such file or directory"⟩
  is_dir := fun p => p == "/w"
  is_file := fun _ => false
  read_dir := fun _ => Except.error ⟨ErrKind.os 13, "Permission denied"⟩
  utf8_representable := fun _ => false

/-! ## Helper lemmas -/

/-- A non-empty string is not `isEmpty`. -/
theorem isEmpty_eq_false_of_ne_empty {s : String} (h : s ≠ "") :
    s.isEmpty = false := by
  cases he : s.isEmpty
  · rfl
  · exact absurd ((String.isEmpty_iff s).mp he) h

/-- On a list of error-free entries, the scan loop returns exactly the
joined entry paths that are regular files with the requested
extension. -/
theorem seek_entries_map_ok (fs : FS) (d ext : String) (names : List String) :
    seek_entries fs d ext (names.map Except.ok) =
      Except.ok ((names.map (path_join d)).filter
        (fun p => fs.is_file p && path_extension p == some ext)) := by
  induction names with
  | nil => rfl
  | cons n ns ih =>
    simp only [List.map_cons, seek_entries, ih, List.filter_cons]
    by_cases h : (fs.is_file (path_join d n)
        && (path_extension (path_join d n) == some ext)) = true
    · rw [if_pos h, if_pos h]
    · rw [if_neg h, if_neg h]

/-- Success inversion for `is_valid_directory`: the returned path is the
canonicalization of the input and passes the directory check. -/
theorem is_valid_directory_ok_inv (fs : FS) (p q : String)
    (h : is_valid_directory fs p = Except.ok q) :
    fs.canonicalize p = Except.ok q ∧ fs.is_dir q = true := by
  rw [is_valid_directory, get_full_path] at h
  split at h
  · cases h
  next full hc =>
    split at h
    · cases h
    next s hs =>
      split at h
      · cases h
      next hd =>
        injection h with h
        subst h
        exact ⟨hc, by simpa using hd⟩

/-- Success inversion for `is_valid_file`: the returned path is the
canonicalization of the input and passes the regular-file check. -/
theorem is_valid_file_ok_inv (fs : FS) (p q : String)
    (h : is_valid_file fs p = Except.ok q) :
    fs.canonicalize p = Except.ok q ∧ fs.is_file q = true := by
  rw [is_valid_file, get_full_path] at h
  split at h
  · cases h
  next full hc =>
    split at h
    · cases h
    next s hs =>
      split at h
      · cases h
      next hf =>
        injection h with h
        subst h
        exact ⟨hc, by simpa using hf⟩

/-- Joining keeps the directory's characters as a prefix of the
result. -/
theorem path_join_data (dir name : String) :
    ∃ rest, (path_join dir name).data = dir.data ++ rest := by
  rw [path_join]
  by_cases h : dir.data.getLast? = some '/'
  · rw [if_pos h]
    exact ⟨name.data, String.data_append dir name⟩
  · rw [if_neg h]
    refine ⟨"/".data ++ name.data, ?_⟩
    rw [String.data_append, String.data_append, List.append_assoc]

/-- Membership inversion for a successful scan loop: every returned
path comes from an `Ok` entry, is the directory joined with that
entry's name, and satisfies the file-and-extension test. -/
theorem seek_entries_ok_mem (fs : FS) (dir ext : String)
    (entries : List (Except IOErr String)) (l : List String)
    (h : seek_entries fs dir ext entries = Except.ok l) :
    ∀ p ∈ l, ∃ n, Except.ok n ∈ entries ∧ p = path_join dir n ∧
      fs.is_file p = true ∧ path_extension p = some ext := by
  induction entries generalizing l with
  | nil =>
    injection h with h
    subst h
    intro p hp
    exact absurd hp (List.not_mem_nil p)
  | cons e rest ih =>
    cases e with
    | error err =>
      simp only [seek_entries] at h
      cases h
    | ok name =>
      simp only [seek_entries] at h
      cases hrest : seek_entries fs dir ext rest with
      | error err =>
        simp only [hrest] at h
        cases h
      | ok files =>
        simp only [hrest] at h
        by_cases hcond : (fs.is_file (path_join dir name)
            && (path_extension (path_join dir name) == some ext)) = true
        · rw [if_pos hcond] at h
          injection h with h
          subst h
          intro p hp
          rcases List.mem_cons.mp hp with hpeq | hpmem
          · subst hpeq
            rw [Bool.and_eq_true] at hcond
            rcases hcond with ⟨hfile, hextv⟩
            exact ⟨name, List.mem_cons_self _ _, rfl, hfile, beq_iff_eq.mp hextv⟩
          · rcases ih files hrest p hpmem with ⟨n, hn, hpn, hf, he⟩
            exact ⟨n, List.mem_cons_of_mem _ hn, hpn, hf, he⟩
        · rw [if_neg hcond] at h
          injection h with h
          subst h
          intro p hp
          rcases ih files hrest p hp with ⟨n, hn, hpn, hf, he⟩
          exact ⟨n, List.mem_cons_of_mem _ hn, hpn, hf, he⟩

/-- When no dot is found, there is no dot. -/
theorem last_dot_idx_none_no_dot : ∀ l : List Char,
    last_dot_idx l = none → '.' ∉ l := by
  intro l
  induction l with
  | nil =>
    intro _ hmem
    exact absurd hmem (List.not_mem_nil '.')
  | cons c cs ih =>
    intro h
    rw [last_dot_idx] at h
    cases hcs : last_dot_idx cs with
    | some i =>
      rw [hcs] at h
      cases h
    | none =>
      rw [hcs] at h
      by_cases hc : c = '.'
      · rw [if_pos hc] at h
        cases h
      · rw [if_neg hc] at h
        intro hmem
        rcases List.mem_cons.mp hmem with h1 | h2
        · exact hc h1.symm
        · exact ih hcs h2

/-- Everything after the last dot contains no dot. -/
theorem last_dot_idx_drop_no_dot : ∀ (l : List Char) (i : Nat),
    last_dot_idx l = some i → '.' ∉ l.drop (i + 1) := by
  intro l
  induction l with
  | nil =>
    intro i h
    cases h
  | cons c cs ih =>
    intro i h
    rw [last_dot_idx] at h
    cases hcs : last_dot_idx cs with
    | some j =>
      rw [hcs] at h
      injection h with h
      subst h
      rw [List.drop_succ_cons]
      exact ih j hcs
    | none =>
      rw [hcs] at h
      by_cases hc : c = '.'
      · rw [if_pos hc] at h
        injection h with h
        subst h
        rw [List.drop_succ_cons, List.drop_zero]
        exact last_dot_idx_none_no_dot cs hcs
      · rw [if_neg hc] at h
        cases h

/-- An extension component produced by `file_extension` never contains
a dot: it is the segment after the last dot of the file name. -/
theorem file_extension_no_dot (n e : String) (h : file_extension n = some e) :
    '.' ∉ e.data := by
  rw [file_extension] at h
  by_cases h2 : n = ".."
  · rw [if_pos h2] at h
    cases h
  · rw [if_neg h2] at h
    cases hidx : last_dot_idx n.toList with
    | none =>
      rw [hidx] at h
      cases h
    | some i =>
      rw [hidx] at h
      cases i with
      | zero => cases h
      | succ k =>
        have h3 : some (String.mk (n.toList.drop (k + 1 + 1))) = some e := h
        injection h3 with h3
        subst h3
        exact last_dot_idx_drop_no_dot n.toList (k + 1) hidx

/-- Same fact lifted to `path_extension`. -/
theorem path_extension_no_dot (p e : String) (h : path_extension p = some e) :
    '.' ∉ e.data := by
  rw [path_extension] at h
  cases hf : path_file_name p with
  | none =>
    rw [hf] at h
    cases h
  | some n =>
    rw [hf] at h
    exact file_extension_no_dot n e h

/-- Shared success lemma: when the directory validates, the extension
is non-empty, enumeration succeeds without entry errors and no entry
passes the file-and-extension test, the scan returns `Ok []`. -/
theorem seek_ok_nil_of_no_match (fs : FS) (d ext full : String)
    (names : List String)
    (hdir : is_valid_directory fs d = Except.ok full)
    (hext : ext ≠ "")
    (hread : fs.read_dir full = Except.ok (names.map Except.ok))
    (hno : ∀ n ∈ names, ¬(fs.is_file (path_join full n) = true ∧
      path_extension (path_join full n) = some ext)) :
    seek_file_by_extension fs d ext = Except.ok [] := by
  have hne := isEmpty_eq_false_of_ne_empty hext
  have hfilter : (names.map (path_join full)).filter
      (fun p => fs.is_file p && path_extension p == some ext) = [] := by
    rw [List.filter_eq_nil_iff]
    intro p hp
    rcases List.mem_map.mp hp with ⟨n, hn, hpn⟩
    subst hpn
    intro hcond
    rw [Bool.and_eq_true] at hcond
    rcases hcond with ⟨hf, hev⟩
    exact hno n hn ⟨hf, beq_iff_eq.mp hev⟩
  simp [seek_file_by_extension, hdir, hne, hread, seek_entries_map_ok, hfilter]

/-! ## Claims -/

/-- C1: for a directory path that validates (to `full`) and a non-empty
extension `ext`, when enumeration succeeds with error-free entries,
`seek_file_by_extension` returns `Ok` of exactly those immediate entry
paths (the validated directory joined with the entry name, no
recursion) that are regular files (by metadata, `fs.is_file`) whose
extension component equals `ext` under exact, case-sensitive string
comparison; directories, entries without an extension and non-matching
files are excluded. -/
theorem seek_file_by_extension_ok_exact (fs : FS) (d ext full : String)
    (names : List String)
    (hdir : is_valid_directory fs d = Except.ok full)
    (hext : ext ≠ "")
    (hread : fs.read_dir full = Except.ok (names.map Except.ok)) :
    ∃ l, seek_file_by_extension fs d ext = Except.ok l ∧
      ∀ p, p ∈ l ↔ (∃ n ∈ names, p = path_join full n) ∧
        fs.is_file p = true ∧ path_extension p = some ext := by
  have hne := isEmpty_eq_false_of_ne_empty hext
  refine ⟨(names.map (path_join full)).filter
      (fun p => fs.is_file p && path_extension p == some ext), ?_, ?_⟩
  · simp [seek_file_by_extension, hdir, hne, hread, seek_entries_map_ok]
  · intro p
    constructor
    · intro hp
      rcases List.mem_filter.mp hp with ⟨hmem, hcond⟩
      rcases List.mem_map.mp hmem with ⟨n, hn, hpn⟩
      rw [Bool.and_eq_true] at hcond
      rcases hcond with ⟨hfile, hextv⟩
      exact ⟨⟨n, hn, hpn.symm⟩, hfile, beq_iff_eq.mp hextv⟩
    · intro hp
      rcases hp with ⟨⟨n, hn, hpn⟩, hfile, hextv⟩
      subst hpn
      refine List.mem_filter.mpr ⟨List.mem_map.mpr ⟨n, hn, rfl⟩, ?_⟩
      rw [Bool.and_eq_true]
      exact ⟨hfile, beq_iff_eq.mpr hextv⟩

/-- C1 witness: in `demoFS`, scanning `/d` for `pdf` matches the
characterization. -/
theorem seek_file_by_extension_ok_exact_witness :
    ∃ l, seek_file_by_extension demoFS "/d" "pdf" = Except.ok l ∧
      ∀ p, p ∈ l ↔ (∃ n ∈ ["a.pdf", "f.pdf", "b.txt", "sub"],
          p = path_join "/d" n) ∧
        demoFS.is_file p = true ∧ path_extension p = some "pdf" :=
  seek_file_by_extension_ok_exact demoFS "/d" "pdf" "/d"
    ["a.pdf", "f.pdf", "b.txt", "sub"] rfl (by decide) rfl

/-- C2: every path returned on the `Ok` branch of `is_valid_directory`
is the canonical (absolute, symlink-resolved) form of the input —
namely the output of `fs.canonicalize` — and passes the directory
check; symmetrically for `is_valid_file` with the regular-file check.
No partially-validated path is returned. -/
theorem validated_path_invariant (fs : FS) (p q : String) :
    (is_valid_directory fs p = Except.ok q →
      fs.canonicalize p = Except.ok q ∧ fs.is_dir q = true) ∧
    (is_valid_file fs p = Except.ok q →
      fs.canonicalize p = Except.ok q ∧ fs.is_file q = true) :=
  ⟨is_valid_directory_ok_inv fs p q, is_valid_file_ok_inv fs p q⟩

/-- C2 witness: concrete successful validations in `demoFS`. -/
theorem validated_path_invariant_witness :
    (demoFS.canonicalize "/d" = Except.ok "/d" ∧ demoFS.is_dir "/d" = true) ∧
    (demoFS.canonicalize "/d/a.pdf" = Except.ok "/d/a.pdf" ∧
      demoFS.is_file "/d/a.pdf" = true) :=
  ⟨(validated_path_invariant demoFS "/d" "/d").1 rfl,
   (validated_path_invariant demoFS "/d/a.pdf" "/d/a.pdf").2 rfl⟩

/-- C3: `seek_file_by_extension` checks its error cases in this fixed
order: directory validation (any failure propagated unchanged, even
when the extension is empty), then non-emptiness of the extension, then
enumerability of the directory. -/
theorem seek_error_check_order (fs : FS) (d ext : String) :
    (∀ e, is_valid_directory fs d = Except.error e →
      seek_file_by_extension fs d ext = Except.error e) ∧
    (∀ p, is_valid_directory fs d = Except.ok p → ext = "" →
      seek_file_by_extension fs d ext =
        Except.error ⟨ErrKind.other, "Extension is not specified."⟩) ∧
    (∀ p e, is_valid_directory fs d = Except.ok p → ext ≠ "" →
      fs.read_dir p = Except.error e →
      seek_file_by_extension fs d ext = Except.error e) := by
  refine ⟨?_, ?_, ?_⟩
  · intro e he
    simp [seek_file_by_extension, he]
  · intro p hp hext
    subst hext
    have hemp : ("" : String).isEmpty = true := rfl
    simp [seek_file_by_extension, hp, hemp]
  · intro p e hp hext hre
    have hne := isEmpty_eq_false_of_ne_empty hext
    simp [seek_file_by_extension, hp, hne, hre]

/-- C3 witness: a nonexistent path with an empty extension yields the
validation error (not `MissingExtensionError`); a valid directory with
an empty extension yields the missing-extension error; an unreadable
valid directory yields the enumeration error. -/
theorem seek_error_check_order_witness :
    seek_file_by_extension demoFS "/missing" "" =
      Except.error ⟨ErrKind.os 2, "No such file or directory"⟩ ∧
    seek_file_by_extension demoFS "/d" "" =
      Except.error ⟨ErrKind.other, "Extension is not specified."⟩ ∧
    seek_file_by_extension demoFS "/locked" "txt" =
      Except.error ⟨ErrKind.os 13, "Permission denied"⟩ :=
  ⟨(seek_error_check_order demoFS "/missing" "").1 _ rfl,
   (seek_error_check_order demoFS "/d" "").2.1 "/d" rfl rfl,
   (seek_error_check_order demoFS "/locked" "txt").2.2 "/locked" _ rfl
     (by decide) rfl⟩

/-- C5: for every path that validates as a directory, calling
`seek_file_by_extension` with the empty extension string fails with the
missing-extension error. -/
theorem seek_empty_extension_error (fs : FS) (d p : String)
    (h : is_valid_directory fs d = Except.ok p) :
    seek_file_by_extension fs d "" =
      Except.error ⟨ErrKind.other, "Extension is not specified."⟩ := by
  have hemp : ("" : String).isEmpty = true := rfl
  simp [seek_file_by_extension, h, hemp]

/-- C5 witness: the valid directory `/d` of `demoFS` with an empty
extension. -/
theorem seek_empty_extension_error_witness :
    seek_file_by_extension demoFS "/d" "" =
      Except.error ⟨ErrKind.other, "Extension is not specified."⟩ :=
  seek_empty_extension_error demoFS "/d" "/d" rfl

/-- C4 counterexample: the claim that every element of a successful
result is canonical (absolute, symlink-resolved) fails.  In `symFS`,
directory `/d` holds the entry `link.pdf`, a symlink to the regular
file `/real.pdf`; the scan returns `/d/link.pdf`, whose canonical form
is `/real.pdf`, so the returned element is not symlink-resolved. -/
theorem seek_result_canonical_cex :
    ∃ l, seek_file_by_extension symFS "/d" "pdf" = Except.ok l ∧
      ∃ p ∈ l, symFS.canonicalize p ≠ Except.ok p := by
  refine ⟨["/d/link.pdf"], rfl, "/d/link.pdf", List.mem_singleton.mpr rfl, ?_⟩
  intro hcontra
  have h1 : symFS.canonicalize "/d/link.pdf" = Except.ok "/real.pdf" := rfl
  rw [h1] at hcontra
  have h2 : ("/real.pdf" : String) = "/d/link.pdf" := Except.ok.inj hcontra
  exact absurd h2 (by decide)

/-- C4 amended: every element of a successful result is the validated
(canonical) directory joined with an immediate entry name — so the
canonical directory's characters are a prefix of it, and it names a
regular file with the requested extension — but the element itself is
not re-canonicalized: a symlink to a regular file is returned under its
symlink name.  The result is produced fresh with no sort guarantee. -/
theorem seek_result_elements_shape (fs : FS) (d ext full : String)
    (entries : List (Except IOErr String)) (l : List String)
    (hdir : is_valid_directory fs d = Except.ok full)
    (hread : fs.read_dir full = Except.ok entries)
    (hseek : seek_file_by_extension fs d ext = Except.ok l) :
    ∀ p ∈ l, ∃ n, Except.ok n ∈ entries ∧ p = path_join full n ∧
      (∃ rest, p.data = full.data ++ rest) ∧
      fs.is_file p = true ∧ path_extension p = some ext := by
  intro p hp
  simp only [seek_file_by_extension, hdir] at hseek
  by_cases hemp : ext.isEmpty = true
  · rw [if_pos hemp] at hseek
    cases hseek
  · rw [if_neg hemp] at hseek
    simp only [hread] at hseek
    rcases seek_entries_ok_mem fs full ext entries l hseek p hp with
      ⟨n, hn, hpn, hf, hev⟩
    rcases path_join_data full n with ⟨rest, hr⟩
    exact ⟨n, hn, hpn, ⟨rest, by rw [hpn, hr]⟩, hf, hev⟩

/-- C4 amended witness: in `demoFS`, scanning `/d` for `pdf` returns
`/d/a.pdf` among others, and it is of the joined shape. -/
theorem seek_result_elements_shape_witness :
    ∃ n, Except.ok n ∈ ([Except.ok "a.pdf", Except.ok "f.pdf",
        Except.ok "b.txt", Except.ok "sub"] : List (Except IOErr String)) ∧
      "/d/a.pdf" = path_join "/d" n ∧
      (∃ rest, ("/d/a.pdf" : String).data = ("/d" : String).data ++ rest) ∧
      demoFS.is_file "/d/a.pdf" = true ∧
      path_extension "/d/a.pdf" = some "pdf" :=
  seek_result_elements_shape demoFS "/d" "pdf" "/d"
    [Except.ok "a.pdf", Except.ok "f.pdf", Except.ok "b.txt", Except.ok "sub"]
    ["/d/a.pdf", "/d/f.pdf"] rfl rfl rfl "/d/a.pdf" (by decide)

/-- C6: for a path canonicalizing to an existing regular file, file
validation succeeds while directory validation fails with the
not-a-directory error carrying the resolved path string; symmetrically,
for a path canonicalizing to an existing directory, file validation
fails with the not-a-file error. -/
theorem validate_type_mismatch (fs : FS) (x full : String)
    (hc : fs.canonicalize x = Except.ok full)
    (hu : fs.utf8_representable full = true) :
    (fs.is_file full = true → fs.is_dir full = false →
      is_valid_file fs x = Except.ok full ∧
      is_valid_directory fs x =
        Except.error ⟨ErrKind.other, full ++ " is not a directory"⟩) ∧
    (fs.is_dir full = true → fs.is_file full = false →
      is_valid_directory fs x = Except.ok full ∧
      is_valid_file fs x =
        Except.error ⟨ErrKind.other, full ++ " is not a file"⟩) := by
  have hstr : get_path_str fs full = Except.ok full := by
    rw [get_path_str, if_pos hu]
  constructor
  · intro hf hd
    constructor
    · simp [is_valid_file, get_full_path, hc, hstr, hf]
    · simp [is_valid_directory, get_full_path, hc, hstr, hd]
  · intro hd hf
    constructor
    · simp [is_valid_directory, get_full_path, hc, hstr, hd]
    · simp [is_valid_file, get_full_path, hc, hstr, hf]

/-- C6 witness: the regular file `/d/a.pdf` and the directory `/d` of
`demoFS`. -/
theorem validate_type_mismatch_witness :
    (is_valid_file demoFS "/d/a.pdf" = Except.ok "/d/a.pdf" ∧
      is_valid_directory demoFS "/d/a.pdf" =
        Except.error ⟨ErrKind.other, "/d/a.pdf" ++ " is not a directory"⟩) ∧
    (is_valid_directory demoFS "/d" = Except.ok "/d" ∧
      is_valid_file demoFS "/d" =
        Except.error ⟨ErrKind.other, "/d" ++ " is not a file"⟩) :=
  ⟨(validate_type_mismatch demoFS "/d/a.pdf" "/d/a.pdf" rfl rfl).1 rfl rfl,
   (validate_type_mismatch demoFS "/d" "/d" rfl rfl).2 rfl rfl⟩

/-- C7: for a validated directory with zero matching error-free
entries — including a completely empty directory — a scan with a
non-empty extension returns `Ok` with the empty list, not an error. -/
theorem seek_no_match_ok_empty (fs : FS) (d ext full : String)
    (names : List String)
    (hdir : is_valid_directory fs d = Except.ok full)
    (hext : ext ≠ "")
    (hread : fs.read_dir full = Except.ok (names.map Except.ok))
    (hno : ∀ n ∈ names, ¬(fs.is_file (path_join full n) = true ∧
      path_extension (path_join full n) = some ext)) :
    seek_file_by_extension fs d ext = Except.ok [] :=
  seek_ok_nil_of_no_match fs d ext full names hdir hext hread hno

/-- C7 witness: the empty directory `/e` of `demoFS`. -/
theorem seek_no_match_ok_empty_witness :
    seek_file_by_extension demoFS "/e" "pdf" = Except.ok [] :=
  seek_no_match_ok_empty demoFS "/e" "pdf" "/e" [] rfl (by decide) rfl
    (by intro n hn; exact absurd hn (List.not_mem_nil n))

/-- C8: when the canonical form of the input cannot be represented as a
text string, both validators fail with the generic conversion error —
an `IOErr` of kind `Other` — whose message differs from every
type-mismatch message either validator can produce. -/
theorem validate_conversion_error (fs : FS) (p full : String)
    (hc : fs.canonicalize p = Except.ok full)
    (hu : fs.utf8_representable full = false) :
    is_valid_directory fs p =
      Except.error ⟨ErrKind.other, "Failed to convert path to string"⟩ ∧
    is_valid_file fs p =
      Except.error ⟨ErrKind.other, "Failed to convert path to string"⟩ ∧
    (∀ s : String,
      ("Failed to convert path to string" : String) ≠
        s ++ " is not a directory" ∧
      ("Failed to convert path to string" : String) ≠
        s ++ " is not a file") := by
  have hstr : get_path_str fs full =
      Except.error ⟨ErrKind.other, "Failed to convert path to string"⟩ := by
    rw [get_path_str, if_neg]
    simp [hu]
  refine ⟨?_, ?_, ?_⟩
  · simp [is_valid_directory, get_full_path, hc, hstr]
  · simp [is_valid_file, get_full_path, hc, hstr]
  · intro s
    constructor
    · intro h
      have hd := congrArg String.data h
      rw [String.data_append] at hd
      have hl := congrArg List.getLast? hd
      rw [List.getLast?_append_of_ne_nil _ (by decide)] at hl
      exact absurd hl (by decide)
    · intro h
      have hd := congrArg String.data h
      rw [String.data_append] at hd
      have hl := congrArg List.getLast? hd
      rw [List.getLast?_append_of_ne_nil _ (by decide)] at hl
      exact absurd hl (by decide)

/-- C8 witness: in `rawFS`, `/w` canonicalizes to a directory whose
canonical form is not UTF-8 representable. -/
theorem validate_conversion_error_witness :
    is_valid_directory rawFS "/w" =
      Except.error ⟨ErrKind.other, "Failed to convert path to string"⟩ ∧
    is_valid_file rawFS "/w" =
      Except.error ⟨ErrKind.other, "Failed to convert path to string"⟩ ∧
    (∀ s : String,
      ("Failed to convert path to string" : String) ≠
        s ++ " is not a directory" ∧
      ("Failed to convert path to string" : String) ≠
        s ++ " is not a file") :=
  validate_conversion_error rawFS "/w" "/w" rfl rfl

/-- C9: two calls of `seek_file_by_extension` with the same directory
path and extension on the same filesystem snapshot yield the same set
of paths (here even the same list, so membership coincides). -/
theorem seek_idempotent_same_snapshot (fs : FS) (d ext : String)
    (l₁ l₂ : List String)
    (h₁ : seek_file_by_extension fs d ext = Except.ok l₁)
    (h₂ : seek_file_by_extension fs d ext = Except.ok l₂) :
    ∀ p, p ∈ l₁ ↔ p ∈ l₂ := by
  have h : l₁ = l₂ := Except.ok.inj (h₁.symm.trans h₂)
  subst h
  intro p
  rfl

/-- C9 witness: two scans of `/d` for `pdf` in `demoFS`, membership
compared at `/d/a.pdf`. -/
theorem seek_idempotent_same_snapshot_witness :
    "/d/a.pdf" ∈ ["/d/a.pdf", "/d/f.pdf"] ↔
      "/d/a.pdf" ∈ ["/d/a.pdf", "/d/f.pdf"] :=
  seek_idempotent_same_snapshot demoFS "/d" "pdf"
    ["/d/a.pdf", "/d/f.pdf"] ["/d/a.pdf", "/d/f.pdf"] rfl rfl "/d/a.pdf"

/-- C10: for a validated directory whose enumeration succeeds with
error-free entries, an extension argument containing a dot (such as
`tar.gz` or `.pdf`) can never match — the extension component of an
entry name is the segment after its last dot, so it never contains a
dot — and the scan returns `Ok` of the empty list. -/
theorem seek_dotted_extension_empty (fs : FS) (d ext full : String)
    (names : List String)
    (hdir : is_valid_directory fs d = Except.ok full)
    (hdot : '.' ∈ ext.data)
    (hread : fs.read_dir full = Except.ok (names.map Except.ok)) :
    seek_file_by_extension fs d ext = Except.ok [] := by
  have hext : ext ≠ "" := by
    intro h
    subst h
    exact absurd hdot (by decide)
  apply seek_ok_nil_of_no_match fs d ext full names hdir hext hread
  intro n hn hcond
  rcases hcond with ⟨hf, hev⟩
  exact path_extension_no_dot _ _ hev hdot

/-- C10 witness: scanning `/d` of `demoFS` for `tar.gz` (the directory
holds `a.pdf`, `f.pdf`, `b.txt`, `sub`) returns the empty list. -/
theorem seek_dotted_extension_empty_witness :
    seek_file_by_extension demoFS "/d" "tar.gz" = Except.ok [] :=
  seek_dotted_extension_empty demoFS "/d" "tar.gz" "/d"
    ["a.pdf", "f.pdf", "b.txt", "sub"] rfl (by decide) rfl

end FileMethod
